import Mathlib

/-!
Verification of the SDI Process export reconciliation and packaging pipeline.

The definitions below are a shallow embedding of the Python sources
`app.py`, `SDI_Spreadsheet.py` and `SDI_process_database.py`:

* Python strings are Lean `String`s, and the Python string helpers
  (`str.strip`, `str.lower`, `str.isdigit`, decimal formatting with `%d`)
  are modelled character-list-wise for ASCII data, matching Python's
  behaviour on the ASCII strings this pipeline manipulates.
* The SQLite tables touched by the core (`sdi_print_out`, `sdi_sequence`)
  are modelled as an explicit `DbState`; `Option` encodes a table that does
  not exist yet.  Ledger columns are TEXT-typed, as in the schema created by
  `export_to_sdi`, so the status flag is carried as the strings "0"/"1".
* Each operator action (`export_to_sdi`, `exclude_package`,
  `get_next_sdi_package_id`, the `print_out` update of `export_to_planon`)
  becomes a pure state-passing function.
-/

/-- ASCII whitespace stripped by Python `str.strip()` (space, tab, newline,
carriage return, vertical tab, form feed). -/
def isPySpace (c : Char) : Bool :=
  c == ' ' || c == '\t' || c == '\n' || c == '\r' || c == Char.ofNat 11 || c == Char.ofNat 12

/-- `str.strip()` on a character list: drop leading and trailing whitespace. -/
def pyStripL (cs : List Char) : List Char :=
  ((cs.dropWhile isPySpace).reverse.dropWhile isPySpace).reverse

/-- `str.strip()` on a `String`. -/
def pyStripS (s : String) : String := String.mk (pyStripL s.data)

/-- ASCII decimal digit test. -/
def isAsciiDigit (c : Char) : Bool := 48 ≤ c.toNat && c.toNat ≤ 57

/-- Python `str.isdigit()` (restricted to ASCII digits): non-empty and all digits. -/
def isDigitsL (cs : List Char) : Bool := (!cs.isEmpty) && cs.all isAsciiDigit

/-- ASCII alphanumeric test, the character class `[0-9a-zA-Z]` used by
`_normalize_name`. -/
def isAsciiAlnum (c : Char) : Bool :=
  (48 ≤ c.toNat && c.toNat ≤ 57) || (65 ≤ c.toNat && c.toNat ≤ 90) ||
    (97 ≤ c.toNat && c.toNat ≤ 122)

/-- ASCII lower-casing of one character (Python `str.lower()` on ASCII data). -/
def asciiLower (c : Char) : Char :=
  if 65 ≤ c.toNat && c.toNat ≤ 90 then Char.ofNat (c.toNat + 32) else c

/-- `str.lower()` on a `String` (ASCII data). -/
def pyLowerS (s : String) : String := String.mk (s.data.map asciiLower)

/-- The decimal digit character for a value below ten. -/
def decDigitChar (d : Nat) : Char := Char.ofNat (48 + d)

/-- Fuelled decimal rendering of a natural number, most significant digit
first; the embedding of Python's `%d` formatting. -/
def decRender (fuel n : Nat) : List Char :=
  match fuel with
  | 0 => []
  | fuel + 1 =>
    if n < 10 then [decDigitChar n]
    else decRender fuel (n / 10) ++ [decDigitChar (n % 10)]

/-- Decimal rendering of `n` with enough fuel. -/
def natDecL (n : Nat) : List Char := decRender (n + 1) n

/-- Decimal rendering as a `String`: Python `str(n)` for a natural number. -/
def natDecS (n : Nat) : String := String.mk (natDecL n)

/-- Python `str(n)` for an integer (a possible leading minus sign). -/
def intDecL (n : Int) : List Char :=
  if n < 0 then '-' :: natDecL n.natAbs else natDecL n.toNat

/-- Decimal parsing accumulator. -/
def decValAux (acc : Nat) : List Char → Nat
  | [] => acc
  | c :: cs => decValAux (acc * 10 + (c.toNat - 48)) cs

/-- Value of a decimal digit string, the embedding of Python `int()` on an
all-digit string. -/
def decVal (cs : List Char) : Nat := decValAux 0 cs

/-- Python `int(s)` on the text found after the last dash of a package id:
strip surrounding whitespace, then require a non-empty all-digit string
(`ValueError` becomes `none`). -/
def pyIntNat (cs : List Char) : Option Nat :=
  let t := pyStripL cs
  if isDigitsL t then some (decVal t) else none

/-- `s.split('-')[-1]`: the characters after the last dash (the whole string
when no dash occurs). -/
def lastDashComponent (cs : List Char) : List Char :=
  (cs.reverse.takeWhile (fun c => c ≠ '-')).reverse

/-- `s.startswith("SDI-")`. -/
def startsWithSDIDash (cs : List Char) : Bool := cs.take 4 == ['S', 'D', 'I', '-']

/-- `f"SDI-{v:05d}"`: the package identifier format. -/
def formatSdi (n : Nat) : String :=
  String.mk (['S', 'D', 'I', '-'] ++ (List.replicate (5 - (natDecL n).length) '0' ++ natDecL n))

/-- The numeric suffix of a package identifier of the shape produced by
`formatSdi` (value of the digits after the four-character prefix). -/
def sdiSuffixVal (s : String) : Nat := decVal (s.data.drop 4)

/-- `pandas.unique`: deduplicate keeping first occurrences. -/
def pdUniqueAux {α : Type} [DecidableEq α] (seen : List α) : List α → List α
  | [] => []
  | x :: xs => if x ∈ seen then pdUniqueAux seen xs else x :: pdUniqueAux (x :: seen) xs

/-- `pandas.unique` over a list. -/
def pdUnique {α : Type} [DecidableEq α] (l : List α) : List α := pdUniqueAux [] l

/-- `pandas.Series.duplicated()` (keep='first') restricted to the marked
elements: every occurrence that already appeared earlier. -/
def dupExtrasAux {α : Type} [DecidableEq α] (seen : List α) : List α → List α
  | [] => []
  | x :: xs =>
    if x ∈ seen then x :: dupExtrasAux (x :: seen) xs else dupExtrasAux (x :: seen) xs

/-- The elements of `l` marked by `pandas.Series.duplicated()`. -/
def dupExtras {α : Type} [DecidableEq α] (l : List α) : List α := dupExtrasAux [] l

/-- One row of the `sdi_print_out` export ledger (TEXT-typed columns; the
canonical asset fields are represented by their natural key, the QR code). -/
structure LedgerRow where
  qr : String
  idPrintOut : String
  printOut : String
deriving DecidableEq

/-- The persistent store state: the `sdi_print_out` ledger table and the
`sdi_sequence` counter table, `none` when the table does not exist. -/
structure DbState where
  ledger : Option (List LedgerRow)
  seq : Option Nat
deriving DecidableEq

/-- SQLite `MAX` over a TEXT column: lexicographic maximum, `NULL` on no rows. -/
def lexMaxStr (l : List String) : Option String :=
  l.foldl
    (fun acc x =>
      match acc with
      | none => some x
      | some m => some (if m < x then x else m))
    none

/-- The bootstrap of the sequence counter in `get_next_sdi_package_id`: the
numeric suffix of the lexicographically maximal non-empty `id_print_out`
value when it starts with "SDI-" and its suffix parses, else 0. -/
def bootstrapInit (ledger : Option (List LedgerRow)) : Nat :=
  match ledger with
  | none => 0
  | some rows =>
    let ids := (rows.map (fun r => r.idPrintOut)).filter (fun s => s ≠ "")
    match lexMaxStr ids with
    | none => 0
    | some m =>
      if startsWithSDIDash m.data then (pyIntNat (lastDashComponent m.data)).getD 0 else 0

/-- The counter value `get_next_sdi_package_id` reads: the stored
`last_value` when `sdi_sequence` exists, else the bootstrap value it inserts. -/
def bootSeed (s : DbState) : Nat :=
  match s.seq with
  | some v => v
  | none => bootstrapInit s.ledger

/-- `get_next_sdi_package_id`: create and seed `sdi_sequence` when missing,
then read, increment, store and format the counter. -/
def getNextSdiPackageId (s : DbState) : String × DbState :=
  let newV := bootSeed s + 1
  (formatSdi newV, ⟨s.ledger, some newV⟩)

/-- Sequential allocation of `n` package identifiers. -/
def allocN : Nat → DbState → List String × DbState
  | 0, s => ([], s)
  | n + 1, s =>
    let first := getNextSdiPackageId s
    let rest := allocN n first.2
    (first.1 :: rest.1, rest.2)

/-- The consecutive naturals `a, a+1, ..., a+n-1`. -/
def consecFrom (a n : Nat) : List Nat :=
  match n with
  | 0 => []
  | n + 1 => a :: consecFrom (a + 1) n

/-- `exclude_package`: delete the ledger rows of one package identifier,
reporting the deleted count; the sequence counter is untouched.  A missing
ledger table raises, which the route catches: no state change, no count. -/
def excludePackage (s : DbState) (pid : String) : Option Nat × DbState :=
  match s.ledger with
  | none => (none, s)
  | some rows =>
    (some (rows.countP (fun r => r.idPrintOut = pid)),
      ⟨some (rows.filter (fun r => r.idPrintOut ≠ pid)), s.seq⟩)

/-- The ledger-touching operator actions relevant to identifier reuse. -/
inductive LedgerOp where
  | allocOp
  | excludeOp (pid : String)
deriving DecidableEq

/-- Apply one operator action to the store. -/
def applyOp (s : DbState) : LedgerOp → DbState
  | LedgerOp.allocOp => (getNextSdiPackageId s).2
  | LedgerOp.excludeOp pid => (excludePackage s pid).2

/-- Apply a sequence of operator actions. -/
def applyOps (s : DbState) (ops : List LedgerOp) : DbState := ops.foldl applyOp s

/-- `get_codes_in_print_out_table`: the stripped QR codes present in the
ledger; the empty set when the table does not exist or when reading it fails
for any reason (the bare `except` returns `set()`). -/
def getCodesInPrintOut (s : DbState) (readFails : Bool) : List String :=
  if readFails then []
  else
    match s.ledger with
    | none => []
    | some rows => pdUnique (rows.map (fun r => pyStripS r.qr))

/-- One row of the unpackaged dataset handed to `export_to_sdi` (the fields
the action inspects: natural key plus the three required descriptive fields). -/
structure AssetRow where
  qr : String
  description : String
  assetGroup : String
  attrib : String
deriving DecidableEq

/-- The required-field check of `export_to_sdi`: "Description", "Asset Group"
and "Attribute" must be non-blank after stripping. -/
def rowValid (a : AssetRow) : Bool :=
  (pyStripS a.description ≠ "") && (pyStripS a.assetGroup ≠ "") && (pyStripS a.attrib ≠ "")

/-- The outcome `export_to_sdi` flashes to the dashboard. -/
inductive SdiOutcome where
  | noAssets
  | missingRequired
  | confirmation (dups : List String)
  | success (pid : String) (count : Nat)
deriving DecidableEq

/-- The duplicate QR codes `export_to_sdi` computes when not forcing: the
batch's distinct stripped codes that are already in the ledger
(`new_codes.intersection(existing_codes)`). -/
def collisionDupCodes (s : DbState) (df : List AssetRow) (readFails : Bool) : List String :=
  (pdUnique (df.map (fun a => pyStripS a.qr))).filter
    (fun c => c ∈ getCodesInPrintOut s readFails)

/-- `export_to_sdi` (the packaging action): empty-batch check, required-field
check, duplicate-QR confirmation prompt when not forcing, then table
creation, package-id allocation and row insertion (preceded by a delete of
the batch's QR codes when forcing).  `collisionReadFails` says whether the
collision query's read of the ledger failed. -/
def exportToSdi (s : DbState) (df : List AssetRow) (force : Bool)
    (collisionReadFails : Bool) : SdiOutcome × DbState :=
  if df.isEmpty then (SdiOutcome.noAssets, s)
  else if !df.all rowValid then (SdiOutcome.missingRequired, s)
  else
    let dupCodes := collisionDupCodes s df collisionReadFails
    if force = false ∧ dupCodes ≠ [] then (SdiOutcome.confirmation dupCodes, s)
    else
      let rows0 := (s.ledger).getD []
      let alloc := getNextSdiPackageId ⟨some rows0, s.seq⟩
      let newRows := df.map (fun a => (⟨a.qr, alloc.1, "0"⟩ : LedgerRow))
      let base :=
        if force then rows0.filter (fun r => r.qr ∉ df.map (fun a => a.qr)) else rows0
      (SdiOutcome.success alloc.1 df.length, ⟨some (base ++ newRows), alloc.2.seq⟩)

/-- The `print_out` update at the end of `export_to_planon`:
`UPDATE sdi_print_out SET print_out = 1 WHERE "QR Code" IN (...)`, keyed by
QR code only. -/
def markExported (s : DbState) (codes : List String) : DbState :=
  match s.ledger with
  | none => s
  | some rows =>
    ⟨some (rows.map (fun r => if r.qr ∈ codes then ⟨r.qr, r.idPrintOut, "1"⟩ else r)),
      s.seq⟩

/-- One row of the packaged batch `export_to_planon` transforms (the fields
the classification guard inspects). -/
structure PlanonRow where
  qr : String
  assetGroup : String
deriving DecidableEq

/-- One row of the `Asset_Group` classification mapping table. -/
structure AgMapRow where
  name : String
  fullClassification : String
deriving DecidableEq

/-- The panels special case: asset-group value equal to "panels" after
stripping and lower-casing. -/
def isPanelsRow (r : PlanonRow) : Bool := pyLowerS (pyStripS r.assetGroup) == "panels"

/-- The batch after the panels force-map: rows matching the panels test get
the fixed classification code. -/
def panelsForceMapped (batch : List PlanonRow) : List PlanonRow :=
  batch.map (fun r => if isPanelsRow r then ⟨r.qr, "EL.21.306.4067"⟩ else r)

/-- The stripped asset-group short names referenced by the non-panels rows of
a batch. -/
def referencedShortNames (batch : List PlanonRow) : List String :=
  (batch.filter (fun r => !isPanelsRow r)).map (fun r => pyStripS r.assetGroup)

/-- `asset_groups_to_check`: the referenced short names, deduplicated. -/
def assetGroupsToCheck (batch : List PlanonRow) : List String :=
  pdUnique (referencedShortNames batch)

/-- `relevant_mappings`: mapping rows whose stripped name is referenced. -/
def relevantMappings (batch : List PlanonRow) (agmap : List AgMapRow) : List AgMapRow :=
  agmap.filter (fun m => pyStripS m.name ∈ assetGroupsToCheck batch)

/-- `duplicated_names`: raw (unstripped) names occurring more than once among
the relevant mapping rows, deduplicated. -/
def duplicatedMapNames (batch : List PlanonRow) (agmap : List AgMapRow) : List String :=
  pdUnique (dupExtras ((relevantMappings batch agmap).map (fun m => m.name)))

/-- The QR codes named in the duplicate-classification error: rows of the
(panels-mapped) batch whose raw asset-group value is a duplicated name. -/
def conflictingQrCodes (batch : List PlanonRow) (agmap : List AgMapRow) : List String :=
  ((panelsForceMapped batch).filter
      (fun r => r.assetGroup ∈ duplicatedMapNames batch agmap)).map
    (fun r => r.qr)

/-- The duplicate-classification guard of `export_to_planon`: `some qrCodes`
when the batch is rejected with the listed QR codes, `none` when the export
proceeds.  The guard only runs when the mapping table is non-empty and some
non-panels asset group is referenced, and fires on `duplicated_names.any()`,
which is numpy truthiness: some duplicated raw name is non-empty. -/
def planonGuard (batch : List PlanonRow) (agmap : List AgMapRow) : Option (List String) :=
  if agmap.isEmpty then none
  else if (assetGroupsToCheck batch).isEmpty then none
  else if (duplicatedMapNames batch agmap).any (fun nm => nm ≠ "") then
    some (conflictingQrCodes batch agmap)
  else none

/-- The mapping rows a short name `s` referenced by a batch resolves against
(the stripped-name match used by the classification merge). -/
def mappingMatches (agmap : List AgMapRow) (s : String) : List AgMapRow :=
  agmap.filter (fun m => pyStripS m.name = s)

/-- `s[:-2]` when `s.endswith('.0')`, else `s` unchanged. -/
def stripTrailingDot0 (cs : List Char) : List Char :=
  match cs.reverse with
  | '0' :: '.' :: rest => rest.reverse
  | _ => cs

/-- The characters of "-01-01", the fixed day/month of the emitted date. -/
def dateSuffix : List Char := ['-', '0', '1', '-', '0', '1']

/-- `format_year_to_date` from `export_to_planon`: falsy input passes
through; otherwise strip, drop a trailing ".0", and when the rest is all
digits classify by length (4 digits strictly inside 1900..2100 used as-is,
2 digits expanded around the current two-digit year), emitting a
first-of-year date; anything else is returned unchanged. -/
def formatYearToDate (curShort : Nat) (yearStr : String) : String :=
  if yearStr = "" then yearStr
  else
    let t := stripTrailingDot0 (pyStripL yearStr.data)
    if isDigitsL t then
      let v := decVal t
      let fullYear : Option Nat :=
        if t.length = 4 ∧ 1900 < v ∧ v < 2100 then some v
        else if t.length = 2 then some (if curShort < v then 1900 + v else 2000 + v)
        else none
      match fullYear with
      | some y => if y ≠ 0 then String.mk (natDecL y ++ dateSuffix) else yearStr
      | none => yearStr
    else yearStr

/-- The spec's statement of date normalization, written from its words: "a
free-text manufacture year is reduced by stripping a trailing `.0` decimal
artifact, then: a 4-digit value in (1900, 2100) exclusive is used as-is; a
2-digit value is expanded to a full year using a pivot at the current
two-digit year (values greater than current-year-mod-100 map to 19xx, else
20xx); any result is emitted as a fixed-format date string (day/month
defaulted to the 1st).  Non-numeric or out-of-range input passes through
unchanged."  Surrounding whitespace is part of the reduction. -/
def specYearNormalization (curShort : Nat) (input : String) : String :=
  let t := stripTrailingDot0 (pyStripL input.data)
  if isDigitsL t then
    if t.length = 4 then
      if 1900 < decVal t ∧ decVal t < 2100 then String.mk (natDecL (decVal t) ++ dateSuffix)
      else input
    else if t.length = 2 then
      if curShort < decVal t then String.mk (natDecL (1900 + decVal t) ++ dateSuffix)
      else String.mk (natDecL (2000 + decVal t) ++ dateSuffix)
    else input
  else input

/-- A Python value held by an approval column: a string, an integer, or a
float restricted to whole-number values (the only floats this claim needs). -/
inductive PyVal where
  | pstr (s : String)
  | pint (n : Int)
  | pfloatWhole (n : Int)
deriving DecidableEq

/-- Python `str()` of such a value (`str(1.0)` is "1.0"). -/
def pyStr : PyVal → String
  | PyVal.pstr s => s
  | PyVal.pint n => String.mk (intDecL n)
  | PyVal.pfloatWhole n => String.mk (intDecL n ++ ['.', '0'])

/-- The "Approved" column of a source table: absent (with the row count), or
present with a pandas dtype — object (text), integer, or float (restricted
to whole-number values). -/
inductive ApprovedCol where
  | absent (n : Nat)
  | objCol (vals : List String)
  | intCol (vals : List Int)
  | floatCol (vals : List Int)
deriving DecidableEq

/-- The column's values as Python values. -/
def colVals : ApprovedCol → List PyVal
  | ApprovedCol.absent _ => []
  | ApprovedCol.objCol vs => vs.map PyVal.pstr
  | ApprovedCol.intCol vs => vs.map PyVal.pint
  | ApprovedCol.floatCol vs => vs.map PyVal.pfloatWhole

/-- Positions of the values a boolean row mask keeps. -/
def keptIdx {α : Type} (vals : List α) (p : α → Bool) : List Nat :=
  (vals.enum.filter (fun x => p x.2)).map (fun x => x.1)

/-- `filter_approved` of `app.py`: pass all rows when the column is absent,
else keep rows with `df["Approved"].astype(str) == "1"`. -/
def filterApprovedApp : ApprovedCol → List Nat
  | ApprovedCol.absent n => List.range n
  | ApprovedCol.objCol vs => keptIdx vs (fun s => s == "1")
  | ApprovedCol.intCol vs => keptIdx vs (fun v => String.mk (intDecL v) == "1")
  | ApprovedCol.floatCol vs => keptIdx vs (fun v => String.mk (intDecL v ++ ['.', '0']) == "1")

/-- `filter_approved` of `SDI_process_database.py`: pass all rows when the
column is absent; compare to the string "1" on object dtype, else to the
number 1 (where `1.0 == 1` holds). -/
def filterApprovedDb : ApprovedCol → List Nat
  | ApprovedCol.absent n => List.range n
  | ApprovedCol.objCol vs => keptIdx vs (fun s => s == "1")
  | ApprovedCol.intCol vs => keptIdx vs (fun v => v == 1)
  | ApprovedCol.floatCol vs => keptIdx vs (fun v => v == 1)

/-- The filter the claim describes: keep exactly the rows whose value
stringifies to "1". -/
def stringifyKept (c : ApprovedCol) : List Nat :=
  match c with
  | ApprovedCol.absent n => List.range n
  | _ => keptIdx (colVals c) (fun v => pyStr v == "1")

/-- `load_sdi_print_out` of `SDI_Spreadsheet.py`: select the KEEP columns of
every row of `sdi_print_out` (no filter on the export status); the canonical
columns are represented by the QR code natural key. -/
def loadSdiPrintOut (ledger : List LedgerRow) : List String :=
  ledger.map (fun r => r.qr)

/-- `mark_all_rows_as_printed`: `UPDATE sdi_print_out SET print_out = 1`
with no WHERE clause. -/
def markAllRowsAsPrinted (ledger : List LedgerRow) : List LedgerRow :=
  ledger.map (fun r => ⟨r.qr, r.idPrintOut, "1"⟩)

/-- `_normalize_name`: non-alphanumeric runs to single spaces, trimmed,
lower-cased (equivalently: map characters, split into words, re-join). -/
def normChars (cs : List Char) : List Char :=
  cs.map (fun c => if isAsciiAlnum c then asciiLower c else ' ')

/-- Split a character list into space-separated words. -/
def wordsAux (cur : List Char) : List Char → List (List Char)
  | [] => if cur.isEmpty then [] else [cur.reverse]
  | c :: cs =>
    if c == ' ' then
      if cur.isEmpty then wordsAux [] cs else cur.reverse :: wordsAux [] cs
    else wordsAux (c :: cur) cs

/-- Join words with single spaces. -/
def joinWords : List (List Char) → List Char
  | [] => []
  | [w] => w
  | w :: ws => w ++ ' ' :: joinWords ws

/-- `_normalize_name` on a `String`. -/
def normalizeName (s : String) : String :=
  String.mk (joinWords (wordsAux [] (normChars s.data)))

/-- The header-to-column mapping both template writers build: for each header
cell of row 9 (1-based column indices), the data column whose normalized name
matches the normalized header (later columns win on normalized-name
collisions, as in the dict comprehension). -/
def buildMapping (headers : List String) (cols : List String) : List (Nat × String) :=
  (headers.enum).filterMap
    (fun ih =>
      match (cols.reverse).find? (fun c => normalizeName c == normalizeName ih.2) with
      | some c => some (ih.1 + 1, c)
      | none => none)

/-- `_map_headers_to_df2_cols` of `SDI_Spreadsheet.py`: the mapping, or the
`ValueError` raised when it is empty. -/
def mapHeadersToDf2Cols (headers cols : List String) :
    Except String (List (Nat × String)) :=
  let m := buildMapping headers cols
  if m.isEmpty then Except.error ("No template headers (row 9) matched df2 columns.")
  else Except.ok m

/-- The template-writing tail of `export_to_planon`: build the header
mapping; when it is empty the raised `ValueError` aborts the export before
the workbook is saved and before the ledger update, else the workbook is
produced and the batch's QR codes are marked exported. -/
def planonTemplateStep (headers cols : List String) (s : DbState)
    (batchCodes : List String) : Except String (List (Nat × String)) × DbState :=
  let m := buildMapping headers cols
  if m.isEmpty then (Except.error ("No template headers matched the data columns."), s)
  else (Except.ok m, markExported s batchCodes)

/-- C1 counterexample batch: one row referencing asset group "X". -/
def c1Batch : List PlanonRow := [⟨"Q1", "X"⟩]

/-- C1 counterexample mapping: two rows whose names both strip to "X" but
differ in raw text. -/
def c1Map : List AgMapRow := [⟨"X", "A"⟩, ⟨" X", "B"⟩]

/-- C1 witness batch. -/
def c1wBatch : List PlanonRow := [⟨"Q1", "X"⟩]

/-- C1 witness mapping: two rows with the identical raw name "X". -/
def c1wMap : List AgMapRow := [⟨"X", "A"⟩, ⟨"X", "B"⟩]

/-- C2 witness batch: one valid unpackaged row. -/
def c2Df : List AssetRow := [⟨"Q1", "Pump", "Pumps", "ME"⟩]

/-- C2 witness: the store state after the first packaging of `c2Df`. -/
def c2State1 : DbState := ⟨some [⟨"Q1", "SDI-00001", "0"⟩], some 1⟩

/-- C4 counterexample: a legacy store whose ledger holds package SDI-00007
while the `sdi_sequence` counter table does not exist yet. -/
def c4Legacy : DbState := ⟨some [⟨"Q1", "SDI-00007", "0"⟩], none⟩

/-- C4 witness state: counter at 7, empty ledger. -/
def c4wState : DbState := ⟨some [⟨"Q1", "SDI-00007", "0"⟩], some 7⟩

/-- C7 counterexample ledger: a single already-exported row. -/
def c7Ledger : List LedgerRow := [⟨"Q1", "SDI-00001", "1"⟩]

/-- C8 witness state. -/
def c8State : DbState := ⟨some [⟨"Q1", "SDI-00001", "0"⟩], some 1⟩

/-- C9 scenario state: QR code Q1 already packaged. -/
def c9State : DbState := ⟨some [⟨"Q1", "SDI-00001", "0"⟩], some 1⟩

/-- C9 scenario batch: a valid row for the already-packaged Q1. -/
def c9Df : List AssetRow := [⟨"Q1", "Pump", "Pumps", "ME"⟩]

/-- C10 witness state: the same QR code under two different packages. -/
def c10State : DbState :=
  ⟨some [⟨"Q", "SDI-00001", "0"⟩, ⟨"Q", "SDI-00002", "0"⟩], some 2⟩

theorem decValAux_append (acc : Nat) (xs ys : List Char) :
    decValAux acc (xs ++ ys) = decValAux (decValAux acc xs) ys := by
  induction xs generalizing acc with
  | nil => rfl
  | cons c cs ih =>
    show decValAux (acc * 10 + (c.toNat - 48)) (cs ++ ys) =
      decValAux (decValAux (acc * 10 + (c.toNat - 48)) cs) ys
    exact ih _

theorem decDigitChar_toNat (d : Nat) (h : d < 10) : (decDigitChar d).toNat = 48 + d := by
  interval_cases d <;> decide

theorem decRender_val : ∀ (fuel n : Nat), n < 10 ^ fuel → decVal (decRender fuel n) = n := by
  intro fuel
  induction fuel with
  | zero =>
    intro n h
    have hn : n = 0 := by simpa using h
    subst hn
    rfl
  | succ fuel ih =>
    intro n h
    have hstep : decRender (fuel + 1) n =
        if n < 10 then [decDigitChar n]
        else decRender fuel (n / 10) ++ [decDigitChar (n % 10)] := rfl
    rw [hstep]
    by_cases hn : n < 10
    · rw [if_pos hn]
      show decValAux (0 * 10 + ((decDigitChar n).toNat - 48)) [] = n
      rw [decDigitChar_toNat n hn]
      show 0 * 10 + (48 + n - 48) = n
      omega
    · rw [if_neg hn]
      have h10 : (0 : Nat) < 10 := by norm_num
      have hd : n / 10 < 10 ^ fuel := by
        rw [Nat.div_lt_iff_lt_mul h10]
        calc n < 10 ^ (fuel + 1) := h
          _ = 10 ^ fuel * 10 := by rw [pow_succ]
      have hmod : n % 10 < 10 := Nat.mod_lt _ h10
      rw [decVal, decValAux_append, ← decVal, ih (n / 10) hd]
      show decValAux (n / 10 * 10 + ((decDigitChar (n % 10)).toNat - 48)) [] = n
      rw [decDigitChar_toNat _ hmod]
      show n / 10 * 10 + (48 + n % 10 - 48) = n
      omega

theorem decValAux_zeros (k : Nat) : decValAux 0 (List.replicate k '0') = 0 := by
  induction k with
  | zero => rfl
  | succ k ih =>
    have h0 : 0 * 10 + (('0' : Char).toNat - 48) = 0 := by decide
    show decValAux (0 * 10 + (('0' : Char).toNat - 48)) (List.replicate k '0') = 0
    rw [h0]
    exact ih

theorem decVal_pad (k : Nat) (cs : List Char) :
    decVal (List.replicate k '0' ++ cs) = decVal cs := by
  rw [decVal, decValAux_append, decValAux_zeros]
  rfl

theorem natLt10Pow (n : Nat) : n < 10 ^ (n + 1) := by
  have h1 : n < 2 ^ n := Nat.lt_two_pow n
  have h2 : 2 ^ n ≤ 10 ^ n := Nat.pow_le_pow_left (by norm_num) n
  have h3 : 10 ^ n ≤ 10 ^ (n + 1) := Nat.pow_le_pow_right (by norm_num) (Nat.le_succ n)
  omega

theorem natDecL_val (n : Nat) : decVal (natDecL n) = n :=
  decRender_val (n + 1) n (natLt10Pow n)

theorem sdiSuffixVal_formatSdi (n : Nat) : sdiSuffixVal (formatSdi n) = n := by
  show decVal (List.drop 4
    ('S' :: 'D' :: 'I' :: '-' :: (List.replicate (5 - (natDecL n).length) '0' ++ natDecL n))) = n
  rw [show ∀ a b c d : Char, ∀ l : List Char, List.drop 4 (a :: b :: c :: d :: l) = l from
    fun _ _ _ _ _ => rfl]
  rw [decVal_pad, natDecL_val]

theorem consecFrom_succ (a n : Nat) : consecFrom a (n + 1) = a :: consecFrom (a + 1) n := rfl

theorem mem_consecFrom : ∀ (n a x : Nat), x ∈ consecFrom a n ↔ a ≤ x ∧ x < a + n := by
  intro n
  induction n with
  | zero =>
    intro a x
    show x ∈ ([] : List Nat) ↔ _
    simp
  | succ n ih =>
    intro a x
    rw [consecFrom_succ, List.mem_cons, ih (a + 1) x]
    omega

theorem consecFrom_nodup : ∀ (n a : Nat), (consecFrom a n).Nodup := by
  intro n
  induction n with
  | zero => intro a; exact List.nodup_nil
  | succ n ih =>
    intro a
    rw [consecFrom_succ]
    refine List.nodup_cons.mpr ⟨?_, ih (a + 1)⟩
    rw [mem_consecFrom]
    omega

theorem allocN_ids : ∀ (n : Nat) (s : DbState),
    (allocN n s).1 = (consecFrom (bootSeed s + 1) n).map formatSdi := by
  intro n
  induction n with
  | zero => intro s; rfl
  | succ n ih =>
    intro s
    show (getNextSdiPackageId s).1 :: (allocN n (getNextSdiPackageId s).2).1 = _
    rw [ih]
    have hb : bootSeed (getNextSdiPackageId s).2 = bootSeed s + 1 := rfl
    rw [hb, consecFrom_succ, List.map_cons]
    rfl

theorem chain_consec_map : ∀ (n a : Nat),
    List.Chain' (fun x y => sdiSuffixVal y = sdiSuffixVal x + 1)
      ((consecFrom a n).map formatSdi) := by
  intro n
  induction n with
  | zero => intro a; exact List.chain'_nil
  | succ n ih =>
    intro a
    rw [consecFrom_succ, List.map_cons]
    cases n with
    | zero => exact List.chain'_singleton _
    | succ m =>
      rw [consecFrom_succ, List.map_cons]
      refine List.chain'_cons.mpr ⟨?_, ?_⟩
      · rw [sdiSuffixVal_formatSdi, sdiSuffixVal_formatSdi]
      · have h := ih (a + 1)
        rw [consecFrom_succ, List.map_cons] at h
        exact h

/-- C3: N sequential single-threaded calls of the package-id allocator
return the identifiers `SDI-%05d` of the consecutive counter values starting
just above the seed, so the N identifiers are distinct, their numeric
suffixes strictly increase with no gaps, and each call returns exactly its
predecessor's value plus one. -/
theorem alloc_sequential_ids (N : Nat) (s : DbState) :
    (allocN N s).1 = (consecFrom (bootSeed s + 1) N).map formatSdi ∧
    (allocN N s).1.map sdiSuffixVal = consecFrom (bootSeed s + 1) N ∧
    (allocN N s).1.Nodup ∧
    List.Chain' (fun a b => sdiSuffixVal b = sdiSuffixVal a + 1) (allocN N s).1 := by
  have h1 := allocN_ids N s
  have h2 : (allocN N s).1.map sdiSuffixVal = consecFrom (bootSeed s + 1) N := by
    rw [h1, List.map_map]
    have hc : sdiSuffixVal ∘ formatSdi = id := funext sdiSuffixVal_formatSdi
    rw [hc, List.map_id]
  refine ⟨h1, h2, ?_, ?_⟩
  · exact List.Nodup.of_map _ (h2 ▸ consecFrom_nodup N (bootSeed s + 1))
  · rw [h1]
    exact chain_consec_map N (bootSeed s + 1)

theorem applyOp_seq_mono (s : DbState) (v : Nat) (h : s.seq = some v) :
    ∀ o : LedgerOp, ∃ w, (applyOp s o).seq = some w ∧ v ≤ w := by
  intro o
  cases o with
  | allocOp =>
    refine ⟨bootSeed s + 1, rfl, ?_⟩
    have hb : bootSeed s = v := by
      unfold bootSeed
      rw [h]
    omega
  | excludeOp pid =>
    cases hl : s.ledger with
    | none =>
      refine ⟨v, ?_, le_refl v⟩
      simp [applyOp, excludePackage, hl, h]
    | some rows =>
      refine ⟨v, ?_, le_refl v⟩
      simp [applyOp, excludePackage, hl, h]

theorem applyOps_seq_mono : ∀ (ops : List LedgerOp) (s : DbState) (v : Nat),
    s.seq = some v → ∃ w, (applyOps s ops).seq = some w ∧ v ≤ w := by
  intro ops
  induction ops with
  | nil => intro s v h; exact ⟨v, h, le_refl v⟩
  | cons o os ih =>
    intro s v h
    obtain ⟨w, hw, hvw⟩ := applyOp_seq_mono s v h o
    obtain ⟨u, hu, hwu⟩ := ih (applyOp s o) w hw
    exact ⟨u, hu, le_trans hvw hwu⟩

/-- C4 (amended): when the persisted sequence counter exists and its value is
at least the numeric suffix of the excluded package — which is the case
whenever that package was allocated by this code — excluding the package and
then allocating yields the counter's successor, strictly greater than the
excluded suffix; and from any state whose counter was left at `v` by an
allocation, every later allocation (after any interleaving of allocations and
exclusions) returns a strictly greater suffix, so an allocated identifier is
never re-issued. -/
theorem excluded_ids_not_reissued (s : DbState) (v n : Nat) (ops : List LedgerOp)
    (hseq : s.seq = some v) (hn : n ≤ v) :
    (sdiSuffixVal (getNextSdiPackageId ((excludePackage s (formatSdi n)).2)).1 = v + 1 ∧
      n < v + 1) ∧
    v < sdiSuffixVal (getNextSdiPackageId (applyOps s ops)).1 := by
  constructor
  · have hsq : ((excludePackage s (formatSdi n)).2).seq = some v := by
      cases hl : s.ledger with
      | none => simp [excludePackage, hl, hseq]
      | some rows => simp [excludePackage, hl, hseq]
    have hb : bootSeed ((excludePackage s (formatSdi n)).2) = v := by
      unfold bootSeed
      rw [hsq]
    refine ⟨?_, by omega⟩
    show sdiSuffixVal (formatSdi (bootSeed ((excludePackage s (formatSdi n)).2) + 1)) = v + 1
    rw [sdiSuffixVal_formatSdi, hb]
  · obtain ⟨w, hw, hvw⟩ := applyOps_seq_mono ops s v hseq
    have hb : bootSeed (applyOps s ops) = w := by
      unfold bootSeed
      rw [hw]
    show v < sdiSuffixVal (formatSdi (bootSeed (applyOps s ops) + 1))
    rw [sdiSuffixVal_formatSdi, hb]
    omega

/-- C4 witness: with the counter at 7 (the state left by allocating
SDI-00007), excluding SDI-00007 and allocating yields suffix 8 > 7. -/
theorem excluded_ids_not_reissued_witness :
    (sdiSuffixVal (getNextSdiPackageId ((excludePackage c4wState (formatSdi 7)).2)).1 = 7 + 1 ∧
      7 < 7 + 1) ∧
    7 < sdiSuffixVal (getNextSdiPackageId (applyOps c4wState [LedgerOp.excludeOp ("SDI-00007")])).1 :=
  excluded_ids_not_reissued c4wState 7 7 [LedgerOp.excludeOp ("SDI-00007")] rfl (by decide)

/-- C4 counterexample: on a legacy store whose ledger holds package
SDI-00007 while the sequence table does not exist, excluding that package
and then allocating bootstraps the counter from the now-empty ledger and
returns SDI-00001 — not an identifier greater than the excluded one. -/
theorem exclude_reuses_id_on_legacy_state :
    (getNextSdiPackageId ((excludePackage c4Legacy ("SDI-00007")).2)).1 = "SDI-00001" ∧
    ¬ (7 < sdiSuffixVal (getNextSdiPackageId ((excludePackage c4Legacy ("SDI-00007")).2)).1) := by
  decide

theorem mem_pdUniqueAux {α : Type} [DecidableEq α] :
    ∀ (l seen : List α) (x : α), x ∈ pdUniqueAux seen l ↔ x ∈ l ∧ x ∉ seen := by
  intro l
  induction l with
  | nil =>
    intro seen x
    show x ∈ ([] : List α) ↔ _
    simp
  | cons y ys ih =>
    intro seen x
    have hstep : pdUniqueAux seen (y :: ys) =
        if y ∈ seen then pdUniqueAux seen ys else y :: pdUniqueAux (y :: seen) ys := rfl
    rw [hstep]
    by_cases hy : y ∈ seen
    · rw [if_pos hy, ih]
      constructor
      · rintro ⟨hx, hs⟩
        exact ⟨List.mem_cons_of_mem _ hx, hs⟩
      · rintro ⟨hx, hs⟩
        rcases List.mem_cons.mp hx with h1 | h1
        · subst h1
          exact absurd hy hs
        · exact ⟨h1, hs⟩
    · rw [if_neg hy, List.mem_cons, ih]
      constructor
      · rintro (rfl | ⟨hx, hs⟩)
        · exact ⟨List.mem_cons_self _ _, hy⟩
        · have hs2 : x ∉ seen := fun h => hs (List.mem_cons_of_mem _ h)
          exact ⟨List.mem_cons_of_mem _ hx, hs2⟩
      · rintro ⟨hx, hs⟩
        by_cases hxy : x = y
        · exact Or.inl hxy
        · rcases List.mem_cons.mp hx with h1 | h1
          · exact absurd h1 hxy
          · refine Or.inr ⟨h1, ?_⟩
            intro hmem
            rcases List.mem_cons.mp hmem with h2 | h2
            · exact hxy h2
            · exact hs h2

theorem mem_pdUnique {α : Type} [DecidableEq α] (l : List α) (x : α) :
    x ∈ pdUnique l ↔ x ∈ l := by
  rw [pdUnique, mem_pdUniqueAux]
  simp

theorem mem_dupExtrasAux_of_seen {α : Type} [DecidableEq α] :
    ∀ (l seen : List α) (x : α), x ∈ seen → 1 ≤ l.count x → x ∈ dupExtrasAux seen l := by
  intro l
  induction l with
  | nil =>
    intro seen x _ hc
    simp [List.count_nil] at hc
  | cons y ys ih =>
    intro seen x hx hc
    have hstep : dupExtrasAux seen (y :: ys) =
        if y ∈ seen then y :: dupExtrasAux (y :: seen) ys
        else dupExtrasAux (y :: seen) ys := rfl
    rw [hstep]
    by_cases hxy : x = y
    · subst hxy
      rw [if_pos hx]
      exact List.mem_cons_self _ _
    · have hc2 : 1 ≤ ys.count x := by
        rw [List.count_cons] at hc
        have hyx : (y == x) = false := beq_eq_false_iff_ne.mpr (fun h => hxy h.symm)
        rw [hyx] at hc
        simpa using hc
      have hx2 : x ∈ y :: seen := List.mem_cons_of_mem _ hx
      by_cases hy : y ∈ seen
      · rw [if_pos hy]
        exact List.mem_cons_of_mem _ (ih (y :: seen) x hx2 hc2)
      · rw [if_neg hy]
        exact ih (y :: seen) x hx2 hc2

theorem mem_dupExtrasAux_of_two {α : Type} [DecidableEq α] :
    ∀ (l seen : List α) (x : α), 2 ≤ l.count x → x ∈ dupExtrasAux seen l := by
  intro l
  induction l with
  | nil =>
    intro seen x hc
    simp [List.count_nil] at hc
  | cons y ys ih =>
    intro seen x hc
    have hstep : dupExtrasAux seen (y :: ys) =
        if y ∈ seen then y :: dupExtrasAux (y :: seen) ys
        else dupExtrasAux (y :: seen) ys := rfl
    rw [hstep]
    by_cases hxy : x = y
    · subst hxy
      have hc2 : 1 ≤ ys.count x := by
        rw [List.count_cons, beq_self_eq_true, if_pos rfl] at hc
        omega
      by_cases hy : x ∈ seen
      · rw [if_pos hy]
        exact List.mem_cons_self _ _
      · rw [if_neg hy]
        exact mem_dupExtrasAux_of_seen ys (x :: seen) x (List.mem_cons_self _ _) hc2
    · have hc2 : 2 ≤ ys.count x := by
        rw [List.count_cons] at hc
        have hyx : (y == x) = false := beq_eq_false_iff_ne.mpr (fun h => hxy h.symm)
        rw [hyx] at hc
        simpa using hc
      by_cases hy : y ∈ seen
      · rw [if_pos hy]
        exact List.mem_cons_of_mem _ (ih (y :: seen) x hc2)
      · rw [if_neg hy]
        exact ih (y :: seen) x hc2

theorem count_map_eq_length_filter {α β : Type} [DecidableEq β] (f : α → β)
    (b : β) : ∀ l : List α, (l.map f).count b = (l.filter (fun a => f a = b)).length := by
  intro l
  induction l with
  | nil => rfl
  | cons a as ih =>
    rw [List.map_cons, List.count_cons, List.filter_cons, ih]
    by_cases h : f a = b
    · simp [h]
    · simp [h]

/-- C1 counterexample: the short name "X" referenced by batch `c1Batch`
resolves — by the stripped-name match the classification merge uses — to the
two distinct mapping rows ("X","A") and (" X","B") of `c1Map`, yet the guard
does not reject the batch: its duplicate detection compares raw names, and
"X" and " X" differ before stripping. -/
theorem planon_guard_misses_stripped_duplicates :
    "X" ∈ referencedShortNames c1Batch ∧
    2 ≤ (mappingMatches c1Map ("X")).length ∧
    planonGuard c1Batch c1Map = none := by
  decide

/-- C1 (amended): when an asset-group short name referenced by the batch
matches two or more mapping rows carrying the identical raw (unstripped)
non-empty name, `export_to_planon` rejects the whole batch and the error
names the QR codes of every (panels-mapped) batch row whose raw asset-group
value is such a duplicated name; no classification is picked. -/
theorem planon_guard_rejects_raw_duplicates (batch : List PlanonRow)
    (agmap : List AgMapRow) (nm : String) (hne : nm ≠ "")
    (href : pyStripS nm ∈ assetGroupsToCheck batch)
    (hdup : 2 ≤ (agmap.filter (fun m => m.name = nm)).length) :
    planonGuard batch agmap = some (conflictingQrCodes batch agmap) ∧
    ∀ r ∈ panelsForceMapped batch, r.assetGroup = nm →
      r.qr ∈ conflictingQrCodes batch agmap := by
  have hrel : (relevantMappings batch agmap).filter (fun m => m.name = nm) =
      agmap.filter (fun m => m.name = nm) := by
    rw [relevantMappings, List.filter_filter]
    apply List.filter_congr
    intro m _
    by_cases h : m.name = nm
    · simp [h, href]
    · simp [h]
  have hcount : 2 ≤ ((relevantMappings batch agmap).map (fun m => m.name)).count nm := by
    rw [count_map_eq_length_filter, hrel]
    exact hdup
  have hmemdup : nm ∈ duplicatedMapNames batch agmap := by
    rw [duplicatedMapNames, mem_pdUnique]
    exact mem_dupExtrasAux_of_two _ [] nm hcount
  have hany : (duplicatedMapNames batch agmap).any (fun s => s ≠ "") = true := by
    rw [List.any_eq_true]
    exact ⟨nm, hmemdup, decide_eq_true hne⟩
  have hag : agmap.isEmpty = false := by
    cases agmap with
    | nil => simp at hdup
    | cons m ms => rfl
  have hcheck : (assetGroupsToCheck batch).isEmpty = false := by
    cases hx : assetGroupsToCheck batch with
    | nil =>
      rw [hx] at href
      simp at href
    | cons g gs => rfl
  constructor
  · simp [planonGuard, hag, hcheck, hany]
    exact ⟨nm, hmemdup, hne⟩
  · intro r hr hrnm
    rw [conflictingQrCodes]
    refine List.mem_map.mpr ⟨r, ?_, rfl⟩
    refine List.mem_filter.mpr ⟨hr, ?_⟩
    rw [hrnm]
    exact decide_eq_true hmemdup

/-- C1 witness: two mapping rows with the identical raw name "X" and a batch
row referencing "X": the guard rejects the batch and names Q1. -/
theorem planon_guard_rejects_raw_duplicates_witness :
    planonGuard c1wBatch c1wMap = some (conflictingQrCodes c1wBatch c1wMap) ∧
    ("Q1" : String) ∈ conflictingQrCodes c1wBatch c1wMap :=
  ⟨(planon_guard_rejects_raw_duplicates c1wBatch c1wMap ("X") (by decide) (by decide)
      (by decide)).1,
    (planon_guard_rejects_raw_duplicates c1wBatch c1wMap ("X") (by decide) (by decide)
      (by decide)).2 ⟨"Q1", "X"⟩ (by decide) rfl⟩

/-- C2: after a successful packaging of a batch containing QR code Q, the
collision query contains Q (stripped); a second packaging action whose batch
contains Q, without the force/replace flag and with valid required fields,
inserts nothing — the state is unchanged and the action surfaces as a
confirmation prompt carrying the conflicting stripped QR codes, Q included. -/
theorem ledger_exclusivity (s : DbState) (df df2 : List AssetRow) (a a2 : AssetRow)
    (pid : String) (n : Nat) (s1 : DbState)
    (hrun : exportToSdi s df false false = (SdiOutcome.success pid n, s1))
    (ha : a ∈ df) (ha2 : a2 ∈ df2) (hqr : pyStripS a2.qr = pyStripS a.qr)
    (hvalid : df2.all rowValid = true) :
    pyStripS a.qr ∈ getCodesInPrintOut s1 false ∧
    exportToSdi s1 df2 false false =
      (SdiOutcome.confirmation (collisionDupCodes s1 df2 false), s1) ∧
    pyStripS a2.qr ∈ collisionDupCodes s1 df2 false := by
  have h1 : df.isEmpty = false := by
    cases df with
    | nil => exact absurd ha (List.not_mem_nil a)
    | cons x xs => rfl
  by_cases h2 : df.all rowValid = true
  · by_cases h3 : collisionDupCodes s df false = []
    · have hs1 : s1 =
          ⟨some (((s.ledger).getD []) ++
            df.map (fun a =>
              (⟨a.qr, (getNextSdiPackageId ⟨some ((s.ledger).getD []), s.seq⟩).1, "0"⟩ :
                LedgerRow))),
            (getNextSdiPackageId ⟨some ((s.ledger).getD []), s.seq⟩).2.seq⟩ := by
        rw [exportToSdi] at hrun
        simp [h1, h2, h3] at hrun
        exact hrun.2.symm
      have hmem : pyStripS a.qr ∈ getCodesInPrintOut s1 false := by
        rw [hs1]
        show pyStripS a.qr ∈ pdUnique _
        rw [mem_pdUnique, List.map_append, List.map_map]
        refine List.mem_append.mpr (Or.inr ?_)
        refine List.mem_map.mpr ⟨a, ha, rfl⟩
      refine ⟨hmem, ?_⟩
      have h4 : df2.isEmpty = false := by
        cases df2 with
        | nil => exact absurd ha2 (List.not_mem_nil a2)
        | cons x xs => rfl
      have hmem2 : pyStripS a2.qr ∈ collisionDupCodes s1 df2 false := by
        rw [collisionDupCodes]
        refine List.mem_filter.mpr ⟨?_, ?_⟩
        · rw [mem_pdUnique]
          exact List.mem_map.mpr ⟨a2, ha2, rfl⟩
        · rw [hqr]
          exact decide_eq_true hmem
      have h5 : collisionDupCodes s1 df2 false ≠ [] := List.ne_nil_of_mem hmem2
      refine ⟨?_, hmem2⟩
      rw [exportToSdi]
      simp [h4, hvalid, h5]
    · rw [exportToSdi] at hrun
      simp [h1, h2, h3] at hrun
  · rw [exportToSdi] at hrun
    simp [h1, h2] at hrun

/-- C2 witness: packaging `c2Df` into an empty store succeeds as SDI-00001;
repeating the same batch without force is answered by a confirmation naming
Q1 and leaves the state unchanged. -/
theorem ledger_exclusivity_witness :
    pyStripS ("Q1") ∈ getCodesInPrintOut c2State1 false ∧
    exportToSdi c2State1 c2Df false false =
      (SdiOutcome.confirmation (collisionDupCodes c2State1 c2Df false), c2State1) ∧
    pyStripS ("Q1") ∈ collisionDupCodes c2State1 c2Df false :=
  ledger_exclusivity ⟨none, none⟩ c2Df c2Df ⟨"Q1", "Pump", "Pumps", "ME"⟩
    ⟨"Q1", "Pump", "Pumps", "ME"⟩ ("SDI-00001") 1 c2State1 (by decide) (by decide)
    (by decide) rfl (by decide)

/-- C5: the deployed year normalizer agrees with the spec's case analysis on
every input and current-year pivot, and reproduces the spec's examples (the
current two-digit year being 26): "23" becomes the first-of-year date
2023-01-01, "98" becomes 1998-01-01, "1999.0" becomes 1999-01-01, and
"abcd" passes through unchanged. -/
theorem year_normalizer_matches_spec :
    (∀ (cur : Nat) (s : String), formatYearToDate cur s = specYearNormalization cur s) ∧
    formatYearToDate 26 ("23") = "2023-01-01" ∧
    formatYearToDate 26 ("98") = "1998-01-01" ∧
    formatYearToDate 26 ("1999.0") = "1999-01-01" ∧
    formatYearToDate 26 ("abcd") = "abcd" := by
  refine ⟨?_, by decide, by decide, by decide, by decide⟩
  intro cur s
  by_cases hs : s = ""
  · subst hs
    rfl
  · simp only [formatYearToDate, specYearNormalization]
    rw [if_neg hs]
    set t := stripTrailingDot0 (pyStripL s.data) with ht
    set v := decVal t with hv
    by_cases hd : isDigitsL t = true
    · rw [if_pos hd, if_pos hd]
      by_cases hl4 : t.length = 4
      · rw [if_pos hl4]
        by_cases hr : 1900 < v ∧ v < 2100
        · rw [if_pos ⟨hl4, hr⟩, if_pos hr]
          show (if v ≠ 0 then String.mk (natDecL v ++ dateSuffix) else s) =
            String.mk (natDecL v ++ dateSuffix)
          rw [if_pos (show v ≠ 0 by omega)]
        · have hc : ¬(t.length = 4 ∧ 1900 < v ∧ v < 2100) := fun hh => hr ⟨hh.2.1, hh.2.2⟩
          rw [if_neg hc, if_neg hr]
          have hl2 : ¬t.length = 2 := by omega
          rw [if_neg hl2]
      · rw [if_neg hl4]
        have hc : ¬(t.length = 4 ∧ 1900 < v ∧ v < 2100) := fun hh => hl4 hh.1
        rw [if_neg hc]
        by_cases hl2 : t.length = 2
        · rw [if_pos hl2, if_pos hl2]
          by_cases hp : cur < v
          · rw [if_pos hp, if_pos hp]
            show (if 1900 + v ≠ 0 then String.mk (natDecL (1900 + v) ++ dateSuffix) else s) =
              String.mk (natDecL (1900 + v) ++ dateSuffix)
            rw [if_pos (show 1900 + v ≠ 0 by omega)]
          · rw [if_neg hp, if_neg hp]
            show (if 2000 + v ≠ 0 then String.mk (natDecL (2000 + v) ++ dateSuffix) else s) =
              String.mk (natDecL (2000 + v) ++ dateSuffix)
            rw [if_pos (show 2000 + v ≠ 0 by omega)]
        · rw [if_neg hl2, if_neg hl2]
    · rw [if_neg hd, if_neg hd]

theorem snd_mem_of_mem_enumFrom {α : Type} :
    ∀ (l : List α) (i : Nat) (x : Nat × α), x ∈ List.enumFrom i l → x.2 ∈ l := by
  intro l
  induction l with
  | nil =>
    intro i x hx
    simp at hx
  | cons a as ih =>
    intro i x hx
    rcases List.mem_cons.mp hx with h | h
    · subst h
      exact List.mem_cons_self _ _
    · exact List.mem_cons_of_mem _ (ih (i + 1) x h)

theorem keptIdx_map {α β : Type} (f : α → β) (p : β → Bool) (l : List α) :
    keptIdx (l.map f) p = keptIdx l (fun a => p (f a)) := by
  have haux : ∀ (l : List α) (i : Nat),
      ((List.enumFrom i (l.map f)).filter (fun x => p x.2)).map (fun x => x.1) =
        ((List.enumFrom i l).filter (fun x => p (f x.2))).map (fun x => x.1) := by
    intro l
    induction l with
    | nil => intro i; rfl
    | cons a as ih =>
      intro i
      have h1 : List.enumFrom i ((a :: as).map f) =
          (i, f a) :: List.enumFrom (i + 1) (as.map f) := rfl
      have h2 : List.enumFrom i (a :: as) = (i, a) :: List.enumFrom (i + 1) as := rfl
      rw [h1, h2, List.filter_cons, List.filter_cons]
      by_cases hp : p (f a) = true
      · rw [if_pos hp, if_pos hp, List.map_cons, List.map_cons, ih]
      · rw [if_neg hp, if_neg hp, ih]
  exact haux l 0

theorem keptIdx_congr {α : Type} (l : List α) (p q : α → Bool)
    (h : ∀ a, p a = q a) : keptIdx l p = keptIdx l q := by
  unfold keptIdx
  rw [List.filter_congr (fun x _ => h x.2)]

theorem intDec_eq_one_iff (v : Int) : String.mk (intDecL v) = "1" ↔ v = 1 := by
  constructor
  · intro h
    have hl : intDecL v = ['1'] := congrArg String.data h
    by_cases hneg : v < 0
    · rw [intDecL, if_pos hneg] at hl
      have hhead : '-' = '1' := (List.cons.injEq _ _ _ _).mp hl |>.1
      exact absurd hhead (by decide)
    · rw [intDecL, if_neg hneg] at hl
      have h2 := natDecL_val v.toNat
      rw [hl] at h2
      have h3 : decVal ['1'] = 1 := by decide
      rw [h3] at h2
      omega
  · intro h
    subst h
    decide

/-- C6 counterexample: on a numeric (float) approval column holding the value
1.0, the `SDI_process_database.py` variant keeps the row (`1.0 == 1`) while
the `app.py` variant drops it (`str(1.0)` is "1.0", not "1"), so the two
pipeline variants do not implement the same filter, and the kept value does
not stringify to "1". -/
theorem approved_filters_differ_on_float_one :
    filterApprovedDb (ApprovedCol.floatCol [1]) = [0] ∧
    filterApprovedApp (ApprovedCol.floatCol [1]) = [] ∧
    pyStr (PyVal.pfloatWhole 1) ≠ "1" := by
  decide

/-- C6 (amended): the `app.py` filter keeps exactly the rows whose approval
value stringifies to "1" and passes all rows when the column is absent; the
`SDI_process_database.py` variant compares text columns to the string "1" and
numeric columns to the number 1, which agrees with the stringifying filter on
text and integer columns (but not on floats, see the counterexample). -/
theorem approved_filter_characterization :
    (∀ c : ApprovedCol, filterApprovedApp c = stringifyKept c) ∧
    (∀ n : Nat, filterApprovedApp (ApprovedCol.absent n) = List.range n) ∧
    (∀ vs : List String,
      filterApprovedDb (ApprovedCol.objCol vs) = filterApprovedApp (ApprovedCol.objCol vs)) ∧
    (∀ vs : List Int,
      filterApprovedDb (ApprovedCol.intCol vs) = filterApprovedApp (ApprovedCol.intCol vs)) := by
  refine ⟨?_, fun n => rfl, fun vs => rfl, ?_⟩
  · intro c
    cases c with
    | absent n => rfl
    | objCol vs =>
      show keptIdx vs (fun s => s == "1") =
        keptIdx (vs.map PyVal.pstr) (fun v => pyStr v == "1")
      rw [keptIdx_map]
      rfl
    | intCol vs =>
      show keptIdx vs (fun v => String.mk (intDecL v) == "1") =
        keptIdx (vs.map PyVal.pint) (fun v => pyStr v == "1")
      rw [keptIdx_map]
      rfl
    | floatCol vs =>
      show keptIdx vs (fun v => String.mk (intDecL v ++ ['.', '0']) == "1") =
        keptIdx (vs.map PyVal.pfloatWhole) (fun v => pyStr v == "1")
      rw [keptIdx_map]
      rfl
  · intro vs
    show keptIdx vs (fun v => v == 1) = keptIdx vs (fun v => String.mk (intDecL v) == "1")
    apply keptIdx_congr
    intro v
    by_cases h : v = 1
    · subst h
      decide
    · have h2 : ¬String.mk (intDecL v) = "1" := fun hh => h ((intDec_eq_one_iff v).mp hh)
      rw [beq_eq_false_iff_ne.mpr h, beq_eq_false_iff_ne.mpr h2]

/-- C7 counterexample: the CLI batch loader returns the row of a ledger whose
only row is already exported (status "1"), so it does not load only the
not-yet-exported rows. -/
theorem cli_loads_already_exported_rows :
    (∀ r ∈ c7Ledger, r.printOut = "1") ∧ loadSdiPrintOut c7Ledger = ["Q1"] := by
  refine ⟨?_, rfl⟩
  intro r hr
  rcases List.mem_cons.mp hr with h | h
  · subst h
    rfl
  · simp at h

/-- C7 (amended): the CLI batch variant loads every row of the ledger
regardless of export status, and after writing the workbook(s) sets export
status 1 on every ledger row — which are exactly the loaded rows, with QR
codes and package identifiers untouched. -/
theorem cli_loads_all_and_marks_all (ledger : List LedgerRow) :
    (loadSdiPrintOut ledger).length = ledger.length ∧
    (∀ r ∈ ledger, r.qr ∈ loadSdiPrintOut ledger) ∧
    (∀ r ∈ markAllRowsAsPrinted ledger, r.printOut = "1") ∧
    (markAllRowsAsPrinted ledger).map (fun r => r.qr) = loadSdiPrintOut ledger ∧
    (markAllRowsAsPrinted ledger).map (fun r => r.idPrintOut) =
      ledger.map (fun r => r.idPrintOut) := by
  refine ⟨?_, ?_, ?_, ?_, ?_⟩
  · show (ledger.map (fun r => r.qr)).length = ledger.length
    rw [List.length_map]
  · intro r hr
    exact List.mem_map.mpr ⟨r, hr, rfl⟩
  · intro r hr
    obtain ⟨x, _, hxr⟩ := List.mem_map.mp hr
    rw [← hxr]
  · show (ledger.map _).map _ = ledger.map _
    rw [List.map_map]
    rfl
  · show (ledger.map _).map _ = ledger.map _
    rw [List.map_map]
    rfl

/-- C7 witness for the amended claim: on the one-row exported ledger, the
loaded rows contain its QR code and the marked row carries status "1". -/
theorem cli_loads_all_and_marks_all_witness :
    ("Q1" : String) ∈ loadSdiPrintOut c7Ledger ∧
    ((⟨"Q1", "SDI-00001", "1"⟩ : LedgerRow)).printOut = "1" :=
  ⟨(cli_loads_all_and_marks_all c7Ledger).2.1 ⟨"Q1", "SDI-00001", "1"⟩ (by decide),
    (cli_loads_all_and_marks_all c7Ledger).2.2.1 ⟨"Q1", "SDI-00001", "1"⟩ (by decide)⟩

/-- C8: when no header cell of the template's row 9 normalizes to the
normalized name of any record-set column, the mapping is empty, the export
aborts with the "no headers matched" error before any workbook is written,
the ledger is unchanged, and the CLI variant's mapper raises its own
"no headers matched" error. -/
theorem template_headers_must_match (headers cols : List String) (s : DbState)
    (codes : List String)
    (h : ∀ hd ∈ headers, ∀ c ∈ cols, normalizeName hd ≠ normalizeName c) :
    buildMapping headers cols = [] ∧
    planonTemplateStep headers cols s codes =
      (Except.error ("No template headers matched the data columns."), s) ∧
    mapHeadersToDf2Cols headers cols =
      Except.error ("No template headers (row 9) matched df2 columns.") := by
  have hb : buildMapping headers cols = [] := by
    rw [buildMapping, List.filterMap_eq_nil_iff]
    intro ih hih
    cases hfind : (cols.reverse).find? (fun c => normalizeName c == normalizeName ih.2) with
    | none => rfl
    | some c =>
      exfalso
      have hc : normalizeName c = normalizeName ih.2 := by
        simpa using List.find?_some hfind
      have hcmem : c ∈ cols := List.mem_reverse.mp (List.mem_of_find?_eq_some hfind)
      have hh2 : ih.2 ∈ headers := snd_mem_of_mem_enumFrom headers 0 ih hih
      exact h ih.2 hh2 c hcmem hc.symm
  refine ⟨hb, ?_, ?_⟩
  · simp [planonTemplateStep, hb]
  · simp [mapHeadersToDf2Cols, hb]

/-- C8 witness: a template whose only row-9 header is "Legacy Field" matches
no column of a record set with columns "QR Code" and "Property"; the export
errors out and the ledger state is returned unchanged. -/
theorem template_headers_must_match_witness :
    buildMapping [("Legacy Field")] [("QR Code"), ("Property")] = [] ∧
    planonTemplateStep [("Legacy Field")] [("QR Code"), ("Property")] c8State [("Q1")] =
      (Except.error ("No template headers matched the data columns."), c8State) ∧
    mapHeadersToDf2Cols [("Legacy Field")] [("QR Code"), ("Property")] =
      Except.error ("No template headers (row 9) matched df2 columns.") :=
  template_headers_must_match [("Legacy Field")] [("QR Code"), ("Property")] c8State
    [("Q1")] (by decide)

/-- C9: a failing ledger read makes the collision query return the empty set
(whatever the store holds), and in that situation a packaging action whose
batch contains the already-packaged code Q1 proceeds without any confirmation
prompt and inserts a duplicate ledger row: afterwards two rows carry the
stripped QR code Q1. -/
theorem failing_read_bypasses_collision_check :
    (∀ s : DbState, getCodesInPrintOut s true = []) ∧
    pyStripS ("Q1") ∈ getCodesInPrintOut c9State false ∧
    exportToSdi c9State c9Df false true =
      (SdiOutcome.success ("SDI-00002") 1,
        ⟨some [⟨"Q1", "SDI-00001", "0"⟩, ⟨"Q1", "SDI-00002", "0"⟩], some 2⟩) ∧
    ([(⟨"Q1", "SDI-00001", "0"⟩ : LedgerRow), ⟨"Q1", "SDI-00002", "0"⟩].countP
      (fun r => pyStripS r.qr = pyStripS ("Q1"))) = 2 := by
  refine ⟨fun s => rfl, by decide, by decide, by decide⟩

/-- C10: the mark-as-sent update is keyed by QR code alone: every ledger row
whose QR code is in the exported batch's code list is flipped to status "1",
whatever its package identifier, and rows with other QR codes are kept as
they are; the row count never changes. -/
theorem mark_exported_keyed_by_qr (s : DbState) (codes : List String) (r : LedgerRow)
    (hr : r ∈ (s.ledger).getD []) :
    (((markExported s codes).ledger).getD []).length = ((s.ledger).getD []).length ∧
    (r.qr ∈ codes →
      (⟨r.qr, r.idPrintOut, "1"⟩ : LedgerRow) ∈ ((markExported s codes).ledger).getD []) ∧
    (r.qr ∉ codes → r ∈ ((markExported s codes).ledger).getD []) := by
  cases hl : s.ledger with
  | none =>
    rw [hl] at hr
    simp at hr
  | some rows =>
    rw [hl] at hr
    have hm : ((markExported s codes).ledger).getD [] =
        rows.map (fun x => if x.qr ∈ codes then ⟨x.qr, x.idPrintOut, "1"⟩ else x) := by
      rw [markExported, hl]
      rfl
    refine ⟨?_, ?_, ?_⟩
    · rw [hm, List.length_map]
      rfl
    · intro hin
      rw [hm]
      refine List.mem_map.mpr ⟨r, hr, ?_⟩
      rw [if_pos hin]
    · intro hout
      rw [hm]
      refine List.mem_map.mpr ⟨r, hr, ?_⟩
      rw [if_neg hout]

/-- C10 witness: the same QR code Q sits under packages SDI-00001 and
SDI-00002; marking the batch of package SDI-00001 (codes ["Q"]) also flips
the SDI-00002 row. -/
theorem mark_exported_keyed_by_qr_witness :
    (⟨"Q", "SDI-00002", "1"⟩ : LedgerRow) ∈ ((markExported c10State [("Q")]).ledger).getD [] :=
  (mark_exported_keyed_by_qr c10State [("Q")] ⟨"Q", "SDI-00002", "0"⟩ (by decide)).2.1
    (by decide)
